import Mathlib

/-!
Verification of the bar_ops projection / point-of-no-return (PONR) engine.

Modelling conventions for the shallow embedding of the TypeScript source:

* JavaScript `number` values are modelled as exact rationals (`ℚ`); money
  amounts that the data model declares as integer cents are modelled as `ℤ`.
  JS `Math.round` is `jround` (`⌊x + 1/2⌋`, JS rounds half toward +∞),
  `Math.min`/`Math.max` are `min`/`max`, and the source's `clamp` is `jclamp`.
* Millisecond timestamps (`Date.getTime()` values) are modelled as `ℤ`.
  `Date.toISOString()` is an injective rendering of an instant, so ISO-string
  fields are modelled as `Option ℤ` carrying the instant itself (null = none).
* JS array indexing `arr[i] ?? d` is modelled by `jsGetD` (out-of-range and
  negative indices yield the default, as `undefined ?? d` does).
* Functions whose value depends on the runtime's `Intl` timezone database
  (`zonedClockToUtc` via `getOffsetMinutesAt`, and `getZonedNow`) are
  uninterpreted environment parameters ("oracles"): every theorem below holds
  for all possible behaviours of those oracles.
-/

namespace BarOps

/-- `clamp(value, min, max)` from the source (`Math.min(Math.max(v, lo), hi)`). -/
def jclamp (value lo hi : ℚ) : ℚ := min (max value lo) hi

/-- `clamp` over integer-valued quantities (same definition as `jclamp`). -/
def jclampInt (value lo hi : ℤ) : ℤ := min (max value lo) hi

/-- JS `Math.round`: rounds to the nearest integer, half toward positive infinity. -/
def jround (q : ℚ) : ℤ := ⌊q + 1/2⌋

/-- `Math.round` returning the result as a rational again (JS keeps it a number). -/
def jroundQ (q : ℚ) : ℚ := (jround q : ℚ)

/-- `arr[i] ?? d` for a JS array indexed by a (possibly negative) integer. -/
def jsGetD (l : List ℚ) (i : ℤ) (d : ℚ) : ℚ :=
  if 0 ≤ i then l.getD i.toNat d else d

/-- The list of integers `a, a+1, ..., b-1` (empty when `b ≤ a`); used to model
`for` loops running over an integer index range. -/
def intRange (a b : ℤ) : List ℤ :=
  (List.range (b - a).toNat).map (fun k => a + (k : ℤ))

/-! ## src/lib/math.ts -/

/-- `cumulative`'s running-total loop (the `runningTotal` accumulator). -/
def cumulativeGo (runningTotal : ℚ) : List ℚ → List ℚ
  | [] => []
  | value :: rest => (runningTotal + value) :: cumulativeGo (runningTotal + value) rest

/-- `cumulative(values)` from src/lib/math.ts: running prefix sums. -/
def cumulative (values : List ℚ) : List ℚ := cumulativeGo 0 values

/-- `buildBaselineFractions(comparableBucketSeries)` from src/lib/math.ts:
per-night cumulative revenue fractions (clamped to `[0,1]`, shorter series
extended by repeating the last cumulative value via `min(index, length-1)`),
averaged pointwise across nights; `[0.02]` when `maxBuckets` is zero; an
all-zero curve for a night whose total is `≤ 0`. -/
def buildBaselineFractions (comparableBucketSeries : List (List ℚ)) : List ℚ :=
  let maxBuckets := comparableBucketSeries.foldl (fun m series => max m series.length) 0
  if maxBuckets = 0 then [1/50]
  else
    let perNightFractions := comparableBucketSeries.map (fun series =>
      let total := series.foldl (· + ·) 0
      if total ≤ 0 then List.replicate maxBuckets (0 : ℚ)
      else
        let cumulativeValues := cumulative series
        (List.range maxBuckets).map (fun index =>
          let safeIndex := min index (cumulativeValues.length - 1)
          jclamp (cumulativeValues.getD safeIndex 0 / total) 0 1))
    (List.range maxBuckets).map (fun index =>
      let average :=
        (perNightFractions.map (fun fractions => fractions.getD index 0)).sum /
          (perNightFractions.length : ℚ)
      jclamp average 0 1)

/-- `ProjectionMetrics` from src/lib/types.ts (money in integer cents). -/
structure ProjectionMetrics where
  baselineFraction : ℚ
  rawProjectedTotalCents : ℤ
  rampedProjectedTotalCents : ℤ
  rampWeight : ℚ
  elapsedFraction : ℚ
  deriving Repr, DecidableEq

/-- `computeProjection` from src/lib/math.ts. -/
def computeProjection (currentRevenueCents : ℤ) (baselineFractionAtNow : ℚ)
    (rollingAverageRevenueCents : ℤ) (elapsedFraction : ℚ) : ProjectionMetrics :=
  let stableBaseline := jclamp baselineFractionAtNow 0 1
  let guardedBaseline := if stableBaseline < 3/100 then 3/100 else stableBaseline
  let rawProjectedTotalCents :=
    if stableBaseline > 0 then jround ((currentRevenueCents : ℚ) / guardedBaseline)
    else rollingAverageRevenueCents
  let rampProgress := jclamp guardedBaseline 0 1
  let rampWeight := jclamp (rampProgress * (165/100)) (1/10) 1
  let rampedProjectedTotalCents :=
    jround ((rawProjectedTotalCents : ℚ) * rampWeight +
      (rollingAverageRevenueCents : ℚ) * (1 - rampWeight))
  { baselineFraction := stableBaseline
    rawProjectedTotalCents := rawProjectedTotalCents
    rampedProjectedTotalCents := rampedProjectedTotalCents
    rampWeight := rampWeight
    elapsedFraction := jclamp elapsedFraction 0 1 }

/-- `toPercent(numerator, denominator)` from src/lib/math.ts (`null` = `none`). -/
def toPercent (numerator denominator : ℚ) : Option ℚ :=
  if denominator ≤ 0 then none else some (numerator / denominator * 100)

/-- `WagePoint` from src/lib/types.ts. -/
structure WagePoint where
  label : String
  currentPercent : Option ℚ
  targetPercent : ℚ
  historicalPercent : ℚ
  deriving Repr, DecidableEq

/-- The indexed `labels.map((label, index) => ...)` loop of `computeWageSeries`. -/
def computeWageSeriesGo (cumulativeRevenueCents cumulativeLaborCents : List ℚ)
    (targetWagePercent : ℚ) (historicalWagePercentByBucket : List ℚ) (index : ℕ) :
    List String → List WagePoint
  | [] => []
  | label :: rest =>
    { label := label
      currentPercent := toPercent (cumulativeLaborCents.getD index 0)
        (cumulativeRevenueCents.getD index 0)
      targetPercent := targetWagePercent
      historicalPercent := historicalWagePercentByBucket.getD index targetWagePercent } ::
    computeWageSeriesGo cumulativeRevenueCents cumulativeLaborCents targetWagePercent
      historicalWagePercentByBucket (index + 1) rest

/-- `computeWageSeries` from src/lib/math.ts. -/
def computeWageSeries (labels : List String) (cumulativeRevenueCents : List ℚ)
    (cumulativeLaborCents : List ℚ) (targetWagePercent : ℚ)
    (historicalWagePercentByBucket : List ℚ) : List WagePoint :=
  computeWageSeriesGo cumulativeRevenueCents cumulativeLaborCents targetWagePercent
    historicalWagePercentByBucket 0 labels

/-! ## src/lib/types.ts and src/lib/config.ts: data model -/

/-- `DayKey` from src/lib/types.ts. -/
inductive DayKey where
  | monday | tuesday | wednesday | thursday | friday | saturday | sunday
  deriving Repr, DecidableEq

/-- `OperatingHours` from src/lib/types.ts. -/
structure OperatingHours where
  openingTime : String
  closingTime : String
  isClosed : Bool
  deriving Repr, DecidableEq

/-- `DailyTarget` from src/lib/types.ts. -/
structure DailyTarget where
  revenueTargetCents : ℚ
  wageTargetPercent : ℚ
  deriving Repr, DecidableEq

/-- `SquareAccessConfig` from src/lib/types.ts (environment kept as a string). -/
structure SquareAccessConfig where
  environment : String
  accessToken : String
  locationId : String
  deriving Repr, DecidableEq

/-- `DeputyAccessConfig` from src/lib/types.ts. -/
structure DeputyAccessConfig where
  accessToken : String
  baseUrl : String
  deriving Repr, DecidableEq

/-- `AppConfig` from src/lib/config.ts (a `Record<DayKey, _>` is a total map). -/
structure AppConfig where
  storeName : String
  timezone : String
  openingTime : String
  closingTime : String
  dailyOperatingHours : DayKey → OperatingHours
  averageBillLengthMinutes : ℚ
  averageHourlyRate : ℚ
  weeklyPointOfNoReturnWagePercent : ℚ
  refreshIntervalSeconds : ℚ
  excludedOpenOrderLabels : List String
  dataSourceMode : String
  square : SquareAccessConfig
  deputy : DeputyAccessConfig
  dailyTargets : DayKey → DailyTarget

/-- `DAY_KEYS` from the realtime module (monday-first week order). -/
def DAY_KEYS : List DayKey :=
  [.monday, .tuesday, .wednesday, .thursday, .friday, .saturday, .sunday]

/-- `getLastOpenDayKey(config)`: scan `DAY_KEYS` from the end, return the first
day whose operating hours are not closed (`null` = `none` when every day is
closed). Source: src/unnamed/part_009, lines 1484-1493. -/
def getLastOpenDayKey (config : AppConfig) : Option DayKey :=
  DAY_KEYS.reverse.find? (fun dayKey => !(config.dailyOperatingHours dayKey).isClosed)

/-! ## src/lib/time.ts: clock parsing, calendar arithmetic, windows -/

/-- Value of a list of decimal digit characters (`none` if a non-digit occurs). -/
def decimalDigitsVal (cs : List Char) : Option ℕ :=
  cs.foldl (fun acc c =>
    acc.bind (fun n => if c.isDigit then some (n * 10 + (c.toNat - 48)) else none))
    (some 0)

/-- Model of the JS `Number(string)` coercion for the plain decimal numerals the
engine feeds it (optional sign, integer part, optional fraction part); the
empty/whitespace string is `0` and anything else is NaN (`none`). Exotic JS
numeral forms (hex, exponents, `Infinity`) are not modelled — no caller in the
embedded code produces them. -/
def jsNumber (s : String) : Option ℚ :=
  let t := s.trim
  if t = "" then some 0
  else
    let (sign, body) :=
      if t.startsWith "-" then ((-1 : ℚ), t.drop 1)
      else if t.startsWith "+" then ((1 : ℚ), t.drop 1)
      else ((1 : ℚ), t)
    match body.splitOn "." with
    | [intPart] =>
      if intPart = "" then none
      else (decimalDigitsVal intPart.toList).map (fun n => sign * n)
    | [intPart, fracPart] =>
      if intPart = "" && fracPart = "" then none
      else
        (decimalDigitsVal intPart.toList).bind (fun n =>
          (decimalDigitsVal fracPart.toList).map (fun f =>
            sign * ((n : ℚ) + (f : ℚ) / (10 : ℚ) ^ fracPart.length)))
    | _ => none

/-- `parseClockToMinutes(clock)` from src/lib/time.ts: split on `":"`, coerce
both parts with `Number`, return `0` unless both are finite, else clamp hours
to `[0,23]` and minutes to `[0,59]` and combine. -/
def parseClockToMinutes (clock : String) : ℚ :=
  let parts := (clock.splitOn ":").map jsNumber
  match parts.getD 0 none, parts.getD 1 none with
  | some hours, some minutes => min (max hours 0) 23 * 60 + min (max minutes 0) 59
  | _, _ => 0

/-- `LocalDateParts` from the realtime module. -/
structure LocalDateParts where
  year : ℤ
  month : ℤ
  day : ℤ
  deriving Repr, DecidableEq

/-- Day number of the proleptic Gregorian date `(y, m, d)` (with `m ∈ [1,12]`)
relative to the Unix epoch; standard civil-calendar arithmetic used to model
the JS `Date.UTC` day computation. -/
def daysFromCivil (y m d : ℤ) : ℤ :=
  let yp := if 3 ≤ m then y else y - 1
  let mp := if 3 ≤ m then m - 3 else m + 9
  365 * yp + yp.fdiv 4 - yp.fdiv 100 + yp.fdiv 400 + (153 * mp + 2).fdiv 5 + d - 1 - 719468

/-- Inverse of `daysFromCivil`: the civil date of an epoch day number. -/
def civilFromDays (z0 : ℤ) : LocalDateParts :=
  let z := z0 + 719468
  let era := z.fdiv 146097
  let doe := z - era * 146097
  let yoe := (doe - doe.fdiv 1460 + doe.fdiv 36524 - doe.fdiv 146096).fdiv 365
  let doy := doe - (365 * yoe + yoe.fdiv 4 - yoe.fdiv 100)
  let mp := (5 * doy + 2).fdiv 153
  let d := doy - (153 * mp + 2).fdiv 5 + 1
  let m := if mp < 10 then mp + 3 else mp - 9
  { year := yoe + era * 400 + (if m ≤ 2 then 1 else 0), month := m, day := d }

/-- Epoch day number of `Date.UTC(year, month - 1, day)`: JS normalizes
out-of-range month and day fields by carrying. -/
def jsDateUTCDayNumber (year month day : ℤ) : ℤ :=
  let ym := year * 12 + (month - 1)
  daysFromCivil (ym.fdiv 12) (ym.fmod 12 + 1) 1 + (day - 1)

/-- `addDays(parts, days)` from the realtime module: `Date.UTC` with an
overflowed day field, read back as a UTC calendar date. -/
def addDays (parts : LocalDateParts) (days : ℤ) : LocalDateParts :=
  civilFromDays (jsDateUTCDayNumber parts.year parts.month (parts.day + days))

/-- `WindowRange` from the realtime module; `stop` models the source's `end`
field (a reserved word in Lean). Instants are epoch milliseconds. -/
structure WindowRange where
  start : ℤ
  stop : ℤ
  deriving Repr, DecidableEq

/-- Oracle for `zonedClockToUtc(parts, clock, timeZone)` (realtime module lines
1436-1455): its value is determined by the runtime's `Intl` timezone database
through `getOffsetMinutesAt`, so it is treated as an uninterpreted environment
function; every theorem below holds for all of its behaviours. -/
abbrev ZonedClockOracle := LocalDateParts → String → String → ℤ

/-- `buildOperatingWindow(localDate, hours, timeZone)` from the realtime module:
the closing instant moves to the next calendar day when the closing clock time
is at or before the opening clock time. -/
def buildOperatingWindow (zonedClockToUtc : ZonedClockOracle) (localDate : LocalDateParts)
    (hours : OperatingHours) (timeZone : String) : WindowRange :=
  let start := zonedClockToUtc localDate hours.openingTime timeZone
  let openingMinutes := parseClockToMinutes hours.openingTime
  let closingMinutes := parseClockToMinutes hours.closingTime
  let closesNextDay := closingMinutes ≤ openingMinutes
  let closeDate := if closesNextDay then addDays localDate 1 else localDate
  { start := start, stop := zonedClockToUtc closeDate hours.closingTime timeZone }

/-! ## Realtime module: baseline fallback and normalization -/

/-- `buildFallbackFractions(bucketCount)` from the realtime module: `[0]` for a
non-positive count, otherwise the linear ramp `(i+1)/bucketCount` (with the
single-bucket case written `1` in the source). -/
def buildFallbackFractions (bucketCount : ℤ) : List ℚ :=
  if bucketCount ≤ 0 then [0]
  else
    (List.range bucketCount.toNat).map (fun index : ℕ =>
      if bucketCount = 1 then 1 else ((index : ℚ) + 1) / (bucketCount : ℚ))

/-- `normalizeFractions(fractions, bucketCount)` from the realtime module:
identity at the right length, truncation when too long, fallback ramp when
empty, and a clamped linear ramp from the last value toward `1` when too
short. -/
def normalizeFractions (fractions : List ℚ) (bucketCount : ℤ) : List ℚ :=
  if bucketCount ≤ 0 then [0]
  else if (fractions.length : ℤ) = bucketCount then fractions
  else if fractions.length = 0 then buildFallbackFractions bucketCount
  else if bucketCount < (fractions.length : ℤ) then fractions.take bucketCount.toNat
  else
    let last := fractions.getLast?.getD 0
    let remaining := bucketCount - (fractions.length : ℤ)
    fractions ++ (List.range remaining.toNat).map (fun step : ℕ =>
      jclamp (last + (1 - last) * ((step : ℚ) + 1) / (remaining : ℚ)) 0 1)

/-! ## Realtime module: excluded open-order carryover baseline cache

The module-level `Map` `excludedOpenOrderBaselineByServiceDay` is the one piece
of cross-request mutable state; it is modelled by explicit state passing. A JS
`Map` preserves insertion order and `keys().next().value` yields the oldest
key, so the map is a key-ordered association list whose oldest entry is the
head. -/

/-- `ExcludedOpenOrderBaselineEntry` from the realtime module. -/
structure ExcludedOpenOrderBaselineEntry where
  baselineCents : ℚ
  capturedAtIso : String
  deriving Repr, DecidableEq

/-- The `excludedOpenOrderBaselineByServiceDay` map, oldest entry first. -/
abbrev BaselineCache := List (String × ExcludedOpenOrderBaselineEntry)

/-- One step of the JS default array sort: insert a string before the first
element that is not smaller than it (UTF-16 code-unit order modelled by Lean's
code-point order on `String`; they agree on the labels the engine handles). -/
def insertSortedString (s : String) : List String → List String
  | [] => [s]
  | t :: rest => if t < s then t :: insertSortedString s rest else s :: t :: rest

/-- `[...labels].sort()`: insertion sort with the default string comparator. -/
def sortStrings (labels : List String) : List String :=
  labels.foldl (fun acc s => insertSortedString s acc) []

/-- `buildExcludedServiceDayKey(config, windowStartMs, excludedLabels)` from the
realtime module: `locationId|windowStartMs|sortedLabelsJoined`. -/
def buildExcludedServiceDayKey (config : AppConfig) (windowStartMs : ℤ)
    (excludedLabels : List String) : String :=
  let labelsKey := String.intercalate "|" (sortStrings excludedLabels)
  config.square.locationId ++ "|" ++ toString windowStartMs ++ "|" ++ labelsKey

/-- `getExcludedCarryoverBaselineCents` (realtime module lines 1675-1706) with
the module-level map passed and returned explicitly. `nowIso` models the
`new Date().toISOString()` capture timestamp. On a miss, when the map already
holds strictly more than 200 entries the oldest (head) entry is deleted before
inserting. -/
def getExcludedCarryoverBaselineCents (nowIso : String) (config : AppConfig)
    (windowStartMs : ℤ) (excludedLabels : List String)
    (currentExcludedTotalCents : ℚ) (cache : BaselineCache) : ℚ × BaselineCache :=
  if excludedLabels.length = 0 then (0, cache)
  else
    match cache.find? (fun entry =>
        entry.1 = buildExcludedServiceDayKey config windowStartMs excludedLabels) with
    | some existing => (existing.2.baselineCents, cache)
    | none =>
      (max 0 currentExcludedTotalCents,
        (if 200 < cache.length then cache.tail else cache) ++
          [(buildExcludedServiceDayKey config windowStartMs excludedLabels,
            { baselineCents := max 0 currentExcludedTotalCents,
              capturedAtIso := nowIso })])

/-- One request's use of the carryover cache, for stating cross-request facts. -/
structure CarryoverCall where
  nowIso : String
  config : AppConfig
  windowStartMs : ℤ
  excludedLabels : List String
  currentExcludedTotalCents : ℚ

/-- The cache state after a sequence of `getExcludedCarryoverBaselineCents`
calls. -/
def applyCarryoverCalls (calls : List CarryoverCall) (cache : BaselineCache) :
    BaselineCache :=
  calls.foldl (fun c call =>
    (getExcludedCarryoverBaselineCents call.nowIso call.config call.windowStartMs
      call.excludedLabels call.currentExcludedTotalCents c).2) cache

/-! ## Point-of-no-return solver (realtime module lines 2220-2557) -/

/-- `PointOfNoReturnStatus` from src/lib/config.ts. -/
inductive PonrStatus where
  | upcoming | passed | safe_all_shift | not_last_shift | unavailable
  deriving Repr, DecidableEq

/-- `PointOfNoReturnSnapshot` from src/lib/config.ts. ISO-string fields carry
the underlying instant (`Date.toISOString()` is injective on instants). -/
structure PointOfNoReturnSnapshot where
  targetWagePercent : ℚ
  status : PonrStatus
  pointTimeIso : Option ℤ
  minutesFromNow : Option ℤ
  projectedWeekWagePercentAtNow : Option ℚ
  shiftStartIso : Option ℤ
  shiftEndIso : Option ℤ
  deriving Repr, DecidableEq

/-- `buildUnavailablePointOfNoReturn(targetWagePercent, shiftWindow)`. -/
def buildUnavailablePointOfNoReturn (targetWagePercent : ℚ)
    (shiftWindow : Option WindowRange) : PointOfNoReturnSnapshot :=
  { targetWagePercent := targetWagePercent
    status := .unavailable
    pointTimeIso := none
    minutesFromNow := none
    projectedWeekWagePercentAtNow := none
    shiftStartIso := shiftWindow.map (·.start)
    shiftEndIso := shiftWindow.map (·.stop) }

/-- `buildNotLastShiftPointOfNoReturn(targetWagePercent, shiftWindow)`. -/
def buildNotLastShiftPointOfNoReturn (targetWagePercent : ℚ)
    (shiftWindow : Option WindowRange) : PointOfNoReturnSnapshot :=
  { targetWagePercent := targetWagePercent
    status := .not_last_shift
    pointTimeIso := none
    minutesFromNow := none
    projectedWeekWagePercentAtNow := none
    shiftStartIso := shiftWindow.map (·.start)
    shiftEndIso := shiftWindow.map (·.stop) }

/-- `PointOfNoReturnInputs` from the realtime module (`number | null` inputs
are `Option ℚ`). -/
structure PointOfNoReturnInputs where
  config : AppConfig
  dayKey : DayKey
  localDate : LocalDateParts
  timeZone : String
  windowStartMs : ℤ
  effectiveNowMs : ℤ
  completedBucketCount : ℤ
  closedRevenueByBucket : List ℚ
  laborByBucket : List ℚ
  openBillsCents : ℚ
  baselineFractions : List ℚ
  projectedRevenueCents : ℚ
  weeklyRevenueToDateCents : Option ℚ
  weeklyWagesToDateCents : Option ℚ
  currentHourlySpendRate : ℚ

/-- `BUCKET_MINUTES * 60 * 1000` from the realtime module. -/
def BUCKET_MILLISECONDS : ℤ := 15 * 60 * 1000

/-- The crossing-search loop of `buildPointOfNoReturnSnapshot` (lines
2501-2533) after the first sample: `prev` is the previous valid sample (always
below threshold when reached through the walk), and the first sample at or
above the threshold stops the walk — interpolating between the two samples
unless the percent delta is smaller than `0.00001`, in which case the current
sample's time is returned. -/
def findCrossingFrom (targetWagePercent : ℚ) (prev : ℤ × ℚ) :
    List (ℤ × ℚ) → Option ℤ
  | [] => none
  | point :: rest =>
    if point.2 < targetWagePercent then findCrossingFrom targetWagePercent point rest
    else if targetWagePercent ≤ prev.2 then some prev.1
    else
      let previousDelta := prev.2 - targetWagePercent
      let currentDelta := point.2 - targetWagePercent
      let deltaChange := currentDelta - previousDelta
      if |deltaChange| < 1/100000 then some point.1
      else
        let interpolation := jclamp (-previousDelta / deltaChange) 0 1
        some (jround ((prev.1 : ℚ) + ((point.1 : ℚ) - (prev.1 : ℚ)) * interpolation))

/-- The crossing search over the whole valid-sample sequence: the first sample
already at or above the threshold is the crossing point itself. -/
def findCrossingTimeMs (targetWagePercent : ℚ) : List (ℤ × ℚ) → Option ℤ
  | [] => none
  | point :: rest =>
    if point.2 < targetWagePercent then findCrossingFrom targetWagePercent point rest
    else some point.1

/-- The tail of `buildPointOfNoReturnSnapshot` (lines 2535-2556): turn the
crossing-search result into the final snapshot. -/
def ponrFinish (targetWagePercent : ℚ) (shiftWindow : WindowRange)
    (effectiveNowMs : ℤ) (projectedWeekWagePercentAtNow : Option ℚ)
    (crossingTimeMs : Option ℤ) : PointOfNoReturnSnapshot :=
  match crossingTimeMs with
  | none =>
    { targetWagePercent := targetWagePercent
      status := .safe_all_shift
      pointTimeIso := none
      minutesFromNow := none
      projectedWeekWagePercentAtNow := projectedWeekWagePercentAtNow
      shiftStartIso := some shiftWindow.start
      shiftEndIso := some shiftWindow.stop }
  | some crossing =>
    { targetWagePercent := targetWagePercent
      status := if crossing ≤ effectiveNowMs then .passed else .upcoming
      pointTimeIso := some crossing
      minutesFromNow := some (jround (((crossing - effectiveNowMs : ℤ) : ℚ) / 60000))
      projectedWeekWagePercentAtNow := projectedWeekWagePercentAtNow
      shiftStartIso := some shiftWindow.start
      shiftEndIso := some shiftWindow.stop }

/-- The tail guards of `buildPointOfNoReturnSnapshot` (lines 2383-2556): bail
out to `unavailable` when the expected end-of-shift revenue is non-positive or
when no (valid) sample points exist, otherwise run the crossing search over the
valid samples and assemble the final snapshot. -/
def ponrResolve (targetWagePercent : ℚ) (shiftWindow : WindowRange)
    (effectiveNowMs : ℤ) (expectedShiftClose : ℚ) (points : List (ℤ × Option ℚ)) :
    PointOfNoReturnSnapshot :=
  if expectedShiftClose ≤ 0 then
    buildUnavailablePointOfNoReturn targetWagePercent (some shiftWindow)
  else if points.length = 0 then
    buildUnavailablePointOfNoReturn targetWagePercent (some shiftWindow)
  else
    let validPoints := points.filterMap
      (fun point => point.2.map (fun percent => (point.1, percent)))
    if validPoints.length = 0 then
      buildUnavailablePointOfNoReturn targetWagePercent (some shiftWindow)
    else
      let projectedWeekWagePercentAtNow :=
        match points.find? (fun point => point.1 = effectiveNowMs) with
        | some point => point.2
        | none => none
      ponrFinish targetWagePercent shiftWindow effectiveNowMs
        projectedWeekWagePercentAtNow (findCrossingTimeMs targetWagePercent validPoints)

/-- The computational core of `buildPointOfNoReturnSnapshot` (lines 2290-2556),
entered once the day/window/weekly-data guards have passed. The three sample
loops are modelled by `takeWhile` (loop with `break`), an explicit sample at
`effectiveNowMs`, and `filter` (loop with `continue`), exactly mirroring the
source's control flow. -/
def ponrCore (config : AppConfig) (shiftWindow : WindowRange)
    (windowStartMs effectiveNowMs completedBucketCount : ℤ)
    (closedRevenueByBucket laborByBucket : List ℚ) (openBillsCents : ℚ)
    (baselineFractions : List ℚ) (projectedRevenueCents : ℚ)
    (weeklyRevenueToDateCents weeklyWagesToDateCents : ℚ)
    (currentHourlySpendRate : ℚ) : PointOfNoReturnSnapshot :=
  let targetWagePercent := config.weeklyPointOfNoReturnWagePercent
  let shiftStartMs := shiftWindow.start
  let shiftEndMs := shiftWindow.stop
  let bucketCount := closedRevenueByBucket.length
  if bucketCount = 0 ∨ laborByBucket.length ≠ bucketCount then
    buildUnavailablePointOfNoReturn targetWagePercent (some shiftWindow)
  else
    let currentBucketIndex : ℤ :=
      if 0 < completedBucketCount then
        jclampInt (completedBucketCount - 1) 0 ((bucketCount : ℤ) - 1)
      else 0
    let shiftStartBucketIndex :=
      jclampInt ⌊((shiftStartMs - windowStartMs : ℤ) : ℚ) / (BUCKET_MILLISECONDS : ℚ)⌋
        0 (bucketCount : ℤ)
    let shiftEndBucketExclusive :=
      jclampInt ⌈((shiftEndMs - windowStartMs : ℤ) : ℚ) / (BUCKET_MILLISECONDS : ℚ)⌉
        0 (bucketCount : ℤ)
    if shiftEndBucketExclusive ≤ shiftStartBucketIndex then
      buildUnavailablePointOfNoReturn targetWagePercent (some shiftWindow)
    else
      let adjustedRevenueByBucket := closedRevenueByBucket.mapIdx
        (fun index value =>
          if 0 < completedBucketCount ∧ (index : ℤ) = currentBucketIndex then
            value + openBillsCents
          else value)
      let cumulativeClosedRevenue := cumulative closedRevenueByBucket
      let cumulativeAdjustedRevenue := cumulative adjustedRevenueByBucket
      let cumulativeLabor := cumulative laborByBucket
      let beforeShiftClosed :=
        if 0 < shiftStartBucketIndex then
          jsGetD cumulativeClosedRevenue (shiftStartBucketIndex - 1) 0
        else 0
      let beforeShiftAdjusted :=
        if 0 < shiftStartBucketIndex then
          jsGetD cumulativeAdjustedRevenue (shiftStartBucketIndex - 1) 0
        else 0
      let beforeShiftLabor :=
        if 0 < shiftStartBucketIndex then
          jsGetD cumulativeLabor (shiftStartBucketIndex - 1) 0
        else 0
      let currentClosedTotal :=
        if 0 < completedBucketCount then
          jsGetD cumulativeClosedRevenue currentBucketIndex 0
        else 0
      let currentAdjustedTotal :=
        if 0 < completedBucketCount then
          jsGetD cumulativeAdjustedRevenue currentBucketIndex 0
        else 0
      let currentLaborTotal :=
        if 0 < completedBucketCount then
          jsGetD cumulativeLabor currentBucketIndex 0
        else 0
      let shiftClosedNow := max 0 (currentClosedTotal - beforeShiftClosed)
      let shiftAdjustedNow := max 0 (currentAdjustedTotal - beforeShiftAdjusted)
      let shiftLaborNow := max 0 (currentLaborTotal - beforeShiftLabor)
      let weekRevenueBeforeShift := max 0 (weeklyRevenueToDateCents - shiftClosedNow)
      let weekWagesBeforeShift := max 0 (weeklyWagesToDateCents - shiftLaborNow)
      let baselineBeforeShift :=
        if 0 < shiftStartBucketIndex then
          jsGetD baselineFractions (shiftStartBucketIndex - 1) 0
        else 0
      let rawExpectedShiftCumulativeByBucket := (List.range bucketCount).map
        (fun index =>
          let baselineAtIndex := jsGetD baselineFractions (index : ℤ) 1
          let shiftFraction := max 0 (baselineAtIndex - baselineBeforeShift)
          jroundQ (projectedRevenueCents * shiftFraction))
      let expectedShiftNowRaw :=
        if shiftStartBucketIndex ≤ currentBucketIndex then
          jsGetD rawExpectedShiftCumulativeByBucket currentBucketIndex 0
        else 0
      let shiftAlignment := shiftAdjustedNow - expectedShiftNowRaw
      let alignedState := (List.range bucketCount).foldl
        (fun (state : ℚ × List ℚ) index =>
          if shiftStartBucketIndex ≤ (index : ℤ) ∧
              (index : ℤ) < shiftEndBucketExclusive then
            let rawShiftValue := jsGetD rawExpectedShiftCumulativeByBucket (index : ℤ) 0
            let step1 := max 0 (rawShiftValue + shiftAlignment)
            let step2 := max state.1 step1
            let aligned :=
              if (index : ℤ) = currentBucketIndex then max state.1 shiftAdjustedNow
              else step2
            (aligned, state.2 ++ [aligned])
          else (state.1, state.2 ++ [0])) ((0 : ℚ), ([] : List ℚ))
      let alignedExpectedShiftCumulativeByBucket := alignedState.2
      let shiftCloseBucketIndex := shiftEndBucketExclusive - 1
      let expectedShiftClose :=
        jsGetD alignedExpectedShiftCumulativeByBucket shiftCloseBucketIndex
          shiftAdjustedNow
      let mkPoint := fun (timeMs : ℤ) (revenueSoFarShiftCents : ℚ)
          (expectedRevenueSoFarShiftCents : ℚ) (wagesSoFarShiftCents : ℚ) =>
        let expectedRemainingRevenueCents :=
          max 0 (expectedShiftClose - expectedRevenueSoFarShiftCents)
        let remainingShiftHours :=
          max 0 (((shiftEndMs - timeMs : ℤ) : ℚ) / 3600000)
        let oneStaffRemainingWagesCents :=
          jroundQ (remainingShiftHours * config.averageHourlyRate * 100)
        let projectedWeekRevenueCents :=
          weekRevenueBeforeShift + revenueSoFarShiftCents +
            expectedRemainingRevenueCents
        let projectedWeekWagesCents :=
          weekWagesBeforeShift + wagesSoFarShiftCents + oneStaffRemainingWagesCents
        ((timeMs, toPercent projectedWeekWagesCents projectedWeekRevenueCents) :
          ℤ × Option ℚ)
      let boundaryTime := fun (bucketIndex : ℤ) =>
        min shiftEndMs (windowStartMs + (bucketIndex + 1) * BUCKET_MILLISECONDS)
      let pastPoints :=
        ((intRange shiftStartBucketIndex shiftEndBucketExclusive).takeWhile
          (fun bucketIndex => boundaryTime bucketIndex < effectiveNowMs)).map
          (fun bucketIndex =>
            let actualShiftRevenue :=
              max 0 (jsGetD cumulativeAdjustedRevenue bucketIndex 0 - beforeShiftAdjusted)
            let actualShiftWages :=
              max 0 (jsGetD cumulativeLabor bucketIndex 0 - beforeShiftLabor)
            let expectedShiftRevenue :=
              jsGetD alignedExpectedShiftCumulativeByBucket bucketIndex
                actualShiftRevenue
            mkPoint (boundaryTime bucketIndex) actualShiftRevenue
              expectedShiftRevenue actualShiftWages)
      let futurePoints :=
        ((intRange (max currentBucketIndex shiftStartBucketIndex)
            shiftEndBucketExclusive).filter
          (fun bucketIndex => effectiveNowMs < boundaryTime bucketIndex)).map
          (fun bucketIndex =>
            let expectedShiftRevenue := max shiftAdjustedNow
              (jsGetD alignedExpectedShiftCumulativeByBucket bucketIndex
                shiftAdjustedNow)
            let projectedShiftWages := shiftLaborNow +
              jroundQ ((((boundaryTime bucketIndex - effectiveNowMs : ℤ) : ℚ) /
                3600000) * currentHourlySpendRate * 100)
            mkPoint (boundaryTime bucketIndex) expectedShiftRevenue
              expectedShiftRevenue projectedShiftWages)
      let points := mkPoint shiftStartMs 0 0 0 :: pastPoints ++
        mkPoint effectiveNowMs shiftAdjustedNow shiftAdjustedNow shiftLaborNow ::
        futurePoints
      ponrResolve targetWagePercent shiftWindow effectiveNowMs expectedShiftClose points

/-- `buildPointOfNoReturnSnapshot(inputs)` from the realtime module (lines
2250-2557), parameterized by the `zonedClockToUtc` oracle: the last-open-day
guard, the shift-window guard, and the weekly-data guard, dispatching to
`ponrCore` for the computation. -/
def buildPointOfNoReturnSnapshot (zonedClockToUtc : ZonedClockOracle)
    (inputs : PointOfNoReturnInputs) : PointOfNoReturnSnapshot :=
  let targetWagePercent := inputs.config.weeklyPointOfNoReturnWagePercent
  match getLastOpenDayKey inputs.config with
  | none => buildUnavailablePointOfNoReturn targetWagePercent none
  | some lastOpenDayKey =>
    if inputs.dayKey ≠ lastOpenDayKey then
      buildNotLastShiftPointOfNoReturn targetWagePercent none
    else
      let lastShiftHours := inputs.config.dailyOperatingHours lastOpenDayKey
      let shiftWindow := buildOperatingWindow zonedClockToUtc inputs.localDate
        lastShiftHours inputs.timeZone
      if inputs.effectiveNowMs < shiftWindow.start ∨
          shiftWindow.stop < inputs.effectiveNowMs then
        buildNotLastShiftPointOfNoReturn targetWagePercent (some shiftWindow)
      else
        match inputs.weeklyRevenueToDateCents, inputs.weeklyWagesToDateCents with
        | some weeklyRevenueToDateCents, some weeklyWagesToDateCents =>
          ponrCore inputs.config shiftWindow inputs.windowStartMs inputs.effectiveNowMs
            inputs.completedBucketCount inputs.closedRevenueByBucket
            inputs.laborByBucket inputs.openBillsCents inputs.baselineFractions
            inputs.projectedRevenueCents weeklyRevenueToDateCents
            weeklyWagesToDateCents inputs.currentHourlySpendRate
        | _, _ => buildUnavailablePointOfNoReturn targetWagePercent (some shiftWindow)

/-! ## Closed-day snapshot path (realtime module lines 800-896) -/

/-- `sanitizeClock(value, fallback)` from src/lib/config.ts, at its typed call
sites (the value is already a string): trim, require `^(\d{1,2}):(\d{2})$`
with hours in `[0,23]` and minutes in `[0,59]`, and re-emit zero-padded;
otherwise return the fallback. -/
def sanitizeClock (value fallback : String) : String :=
  let t := value.trim
  match t.splitOn ":" with
  | [h, m] =>
    if (h.length = 1 ∨ h.length = 2) ∧ h.toList.all Char.isDigit ∧
        m.length = 2 ∧ m.toList.all Char.isDigit then
      let hours := (decimalDigitsVal h.toList).getD 0
      let minutes := (decimalDigitsVal m.toList).getD 0
      if hours ≤ 23 ∧ minutes ≤ 59 then
        (if hours < 10 then "0" ++ toString hours else toString hours) ++ ":" ++
          (if minutes < 10 then "0" ++ toString minutes else toString minutes)
      else fallback
    else fallback
  | _ => fallback

/-- `getOperatingHoursForDay(config, dayKey)` from src/lib/config.ts: sanitize
the day's hours against the legacy single-window fallback (the typed `isClosed`
boolean passes through unchanged). -/
def getOperatingHoursForDay (config : AppConfig) (dayKey : DayKey) : OperatingHours :=
  let hours := config.dailyOperatingHours dayKey
  { openingTime := sanitizeClock hours.openingTime config.openingTime
    closingTime := sanitizeClock hours.closingTime config.closingTime
    isClosed := hours.isClosed }

/-- `ZonedNow` from src/lib/time.ts. -/
structure ZonedNow where
  dayKey : DayKey
  hour : ℤ
  minute : ℤ

/-- Oracle for `getZonedNow(date, timeZone)` from src/lib/time.ts: its value is
determined by the runtime's `Intl.DateTimeFormat` weekday/clock rendering, so
it is an uninterpreted environment function of the instant (epoch ms) and the
timezone name. -/
abbrev ZonedNowOracle := ℤ → String → ZonedNow

/-- Modelled from the spec: `BUSINESS_DAY_START_HOUR` is exported by
src/lib/time.ts but its defining line is not among the provided sources; §4.1
gives 5 AM as the business-day start hour. No claim depends on the value. -/
def BUSINESS_DAY_START_HOUR : ℤ := 5

/-- Modelled from the spec: `toBusinessDayReference(instant, startHour)` is
exported by src/lib/time.ts but its defining line is not among the provided
sources; §4.1 says it subtracts `startHour` hours before taking the local
calendar date, so that 1 AM counts as "last night". -/
def toBusinessDayReference (instantMs : ℤ) (startHour : ℤ) : ℤ :=
  instantMs - startHour * 3600000

/-- The `totals` object of `LiveSnapshot` from src/lib/types.ts. -/
structure SnapshotTotals where
  actualRevenueCents : ℚ
  openBillsCents : ℚ
  adjustedRevenueCents : ℚ
  projectedRevenueCents : ℚ
  projectedVsTargetPercent : ℚ
  laborCostCents : ℚ
  wagePercent : Option ℚ
  deriving Repr, DecidableEq

/-- The `comparison` object of `LiveSnapshot` from src/lib/types.ts. -/
structure SnapshotComparison where
  lastWeekRevenueCents : ℚ
  rollingAverageRevenueCents : ℚ
  deriving Repr, DecidableEq

/-- `RevenueBucket` from src/lib/types.ts. -/
structure RevenueBucket where
  bucketIndex : ℤ
  label : String
  closedRevenueCents : ℚ
  openBillsCents : ℚ
  laborCostCents : ℚ
  deriving Repr, DecidableEq

/-- The `timeline` object of `LiveSnapshot` from src/lib/types.ts. -/
structure SnapshotTimeline where
  revenueBuckets : List RevenueBucket
  baselineFractions : List ℚ
  wageSeries : List WagePoint
  historicalWagePercentByBucket : List ℚ
  deriving Repr, DecidableEq

/-- `LiveSnapshot` from src/lib/types.ts. -/
structure LiveSnapshot where
  generatedAtIso : String
  dayKey : DayKey
  totals : SnapshotTotals
  comparison : SnapshotComparison
  projection : ProjectionMetrics
  timeline : SnapshotTimeline

/-- `buildClosedSnapshot(config, referenceDate)` (realtime module lines
800-853); `nowIso` models `new Date().toISOString()` for `generatedAtIso`. -/
def buildClosedSnapshot (getZonedNow : ZonedNowOracle) (nowIso : String)
    (config : AppConfig) (referenceDateMs : ℤ) : LiveSnapshot :=
  let serviceReference := toBusinessDayReference referenceDateMs BUSINESS_DAY_START_HOUR
  let dayKey := (getZonedNow serviceReference config.timezone).dayKey
  let targetWage := (config.dailyTargets dayKey).wageTargetPercent
  { generatedAtIso := nowIso
    dayKey := dayKey
    totals :=
      { actualRevenueCents := 0
        openBillsCents := 0
        adjustedRevenueCents := 0
        projectedRevenueCents := 0
        projectedVsTargetPercent := 0
        laborCostCents := 0
        wagePercent := none }
    comparison := { lastWeekRevenueCents := 0, rollingAverageRevenueCents := 0 }
    projection :=
      { baselineFraction := 0
        rawProjectedTotalCents := 0
        rampedProjectedTotalCents := 0
        rampWeight := 0
        elapsedFraction := 0 }
    timeline :=
      { revenueBuckets := [⟨0, "Closed", 0, 0, 0⟩]
        baselineFractions := [0]
        wageSeries := [⟨"Closed", none, targetWage, targetWage⟩]
        historicalWagePercentByBucket := [targetWage] } }

/-- The synchronous head of `buildRealtimeSnapshot` (realtime module lines
855-896): resolve the business day, and return the closed snapshot when that
day's configured operating hours are marked closed. `none` means the builder
continues into the asynchronous fetch pipeline (network IO, outside the
embedding). -/
def buildRealtimeSnapshotClosedGuard (getZonedNow : ZonedNowOracle) (nowIso : String)
    (config : AppConfig) (referenceDateMs : ℤ) : Option LiveSnapshot :=
  let serviceReference := toBusinessDayReference referenceDateMs BUSINESS_DAY_START_HOUR
  let zonedReference := getZonedNow serviceReference config.timezone
  let dayKey := zonedReference.dayKey
  let operatingHours := getOperatingHoursForDay config dayKey
  if operatingHours.isClosed then
    some (buildClosedSnapshot getZonedNow nowIso config referenceDateMs)
  else none

/-! ## General-purpose lemmas about the JS primitives -/

theorem jclamp_mem_unit (x : ℚ) : 0 ≤ jclamp x 0 1 ∧ jclamp x 0 1 ≤ 1 := by
  unfold jclamp
  constructor
  · exact le_min (le_max_right x 0) (by norm_num)
  · exact min_le_right _ _

theorem jclamp_mono {a b : ℚ} (lo hi : ℚ) (h : a ≤ b) :
    jclamp a lo hi ≤ jclamp b lo hi :=
  min_le_min (max_le_max h le_rfl) le_rfl

theorem le_jclamp_unit {a x : ℚ} (h1 : a ≤ 1) (hx : a ≤ x) :
    a ≤ jclamp x 0 1 :=
  le_min (le_trans hx (le_max_left x 0)) h1

theorem int_le_jround {a : ℤ} {q : ℚ} (h : (a : ℚ) ≤ q) : a ≤ jround q :=
  Int.le_floor.mpr (by linarith)

theorem jround_le_int {b : ℤ} {q : ℚ} (h : q ≤ (b : ℚ)) : jround q ≤ b := by
  have hfloor : jround q ≤ ⌊(b : ℚ) + 1/2⌋ := Int.floor_le_floor (by linarith)
  rwa [add_comm, Int.floor_add_int, show ⌊(1 : ℚ)/2⌋ = 0 by norm_num, zero_add] at hfloor

theorem getD_map_range (g : ℕ → ℚ) {n i : ℕ} (h : i < n) (d : ℚ) :
    ((List.range n).map g).getD i d = g i := by
  rw [List.getD_eq_getElem?_getD, List.getElem?_map, List.getElem?_range h]
  rfl

theorem getD_replicate (n : ℕ) (a : ℚ) (i : ℕ) (d : ℚ) (h : i < n) :
    (List.replicate n a).getD i d = a := by
  rw [List.getD_eq_getElem?_getD, List.getElem?_replicate]
  simp [h]

theorem chain'_map_range {f : ℕ → ℚ} {n : ℕ} (h : ∀ i, i + 1 < n → f i ≤ f (i + 1)) :
    ((List.range n).map f).Chain' (· ≤ ·) := by
  rw [List.chain'_iff_get]
  intro i hi
  simp only [List.length_map, List.length_range] at hi
  have h1 : i < n := by omega
  have h2 : i + 1 < n := by omega
  simp only [List.get_eq_getElem, List.getElem_map, List.getElem_range]
  exact h i h2

theorem chain'_take {l : List ℚ} (h : l.Chain' (· ≤ ·)) (n : ℕ) :
    (l.take n).Chain' (· ≤ ·) := by
  rw [List.chain'_iff_get] at h ⊢
  intro i hi
  simp only [List.length_take] at hi
  have hlen : i + 1 < l.length := by omega
  have hi1 : i < (l.take n).length := by simp [List.length_take]; omega
  have hi2 : i + 1 < (l.take n).length := by simp [List.length_take]; omega
  simp only [List.get_eq_getElem, List.getElem_take]
  have := h i (by omega)
  simpa using this

/-! ## Lemmas about `cumulative` -/

theorem cumulativeGo_length (acc : ℚ) (l : List ℚ) :
    (cumulativeGo acc l).length = l.length := by
  induction l generalizing acc with
  | nil => rfl
  | cons x xs ih => simp [cumulativeGo, ih]

theorem cumulative_length (l : List ℚ) : (cumulative l).length = l.length :=
  cumulativeGo_length 0 l

theorem cumulativeGo_getD (l : List ℚ) (acc : ℚ) (i : ℕ) (h : i < l.length) :
    (cumulativeGo acc l).getD i 0 = acc + (l.take (i + 1)).sum := by
  induction l generalizing acc i with
  | nil => simp at h
  | cons x xs ih =>
    cases i with
    | zero => simp [cumulativeGo]
    | succ j =>
      have hj : j < xs.length := by simpa using h
      simp only [cumulativeGo, List.getD_cons_succ, List.take_succ_cons, List.sum_cons]
      rw [ih (acc + x) j hj]
      ring

theorem cumulative_getD (l : List ℚ) (i : ℕ) (h : i < l.length) :
    (cumulative l).getD i 0 = (l.take (i + 1)).sum := by
  rw [cumulative, cumulativeGo_getD l 0 i h, zero_add]

theorem sum_take_le_sum_take {l : List ℚ} (hpos : ∀ x ∈ l, 0 ≤ x) {m n : ℕ}
    (h : m ≤ n) : (l.take m).sum ≤ (l.take n).sum := by
  have hsplit : l.take n = l.take m ++ (l.drop m).take (n - m) := by
    rw [← List.take_add]
    congr 1
    omega
  rw [hsplit, List.sum_append]
  have : 0 ≤ ((l.drop m).take (n - m)).sum := by
    refine List.sum_nonneg ?_
    intro x hx
    exact hpos x (List.drop_subset m l (List.take_subset _ _ hx))
  linarith

/-! ## C7: percent null-safety -/

theorem computeWageSeriesGo_get? (R Lb : List ℚ) (t : ℚ) (H : List ℚ)
    (labels : List String) (idx0 i : ℕ) (wp : WagePoint)
    (h : (computeWageSeriesGo R Lb t H idx0 labels).get? i = some wp) :
    wp.currentPercent = toPercent (Lb.getD (idx0 + i) 0) (R.getD (idx0 + i) 0) := by
  induction labels generalizing idx0 i with
  | nil => simp [computeWageSeriesGo] at h
  | cons label rest ih =>
    cases i with
    | zero =>
      simp only [computeWageSeriesGo, List.get?_cons_zero, Option.some_inj] at h
      rw [← h]
      simp
    | succ j =>
      simp only [computeWageSeriesGo, List.get?_cons_succ] at h
      have := ih (idx0 + 1) j h
      rwa [show idx0 + 1 + j = idx0 + (j + 1) by omega] at this

/-- C7: `toPercent(x, 0)` is null for every numerator, and more generally
`toPercent(num, den)` is null whenever `den ≤ 0`; `toPercent(0, 100) = 0`; and
the null propagates into `computeWageSeries`: any wage point whose cumulative
revenue entry is `≤ 0` has a null `currentPercent`. -/
theorem toPercent_null_safety :
    (∀ x : ℚ, toPercent x 0 = none) ∧
    (∀ num den : ℚ, den ≤ 0 → toPercent num den = none) ∧
    toPercent 0 100 = some 0 ∧
    (∀ (labels : List String) (rev lab hist : List ℚ) (target : ℚ) (i : ℕ)
      (wp : WagePoint),
      (computeWageSeries labels rev lab target hist).get? i = some wp →
      rev.getD i 0 ≤ 0 → wp.currentPercent = none) := by
  refine ⟨fun x => by simp [toPercent], fun num den h => by simp [toPercent, h], ?_, ?_⟩
  · norm_num [toPercent]
  · intro labels rev lab hist target i wp hget hrev
    have := computeWageSeriesGo_get? rev lab target hist labels 0 i wp hget
    rw [Nat.zero_add] at this
    rw [this]
    simp only [toPercent, if_pos hrev]

/-- Witness for C7 at concrete inputs: numerator 7 with denominator 0,
denominator -2, the `0/100` case, and a one-bucket wage series with zero
revenue. -/
theorem toPercent_null_safety_witness :
    toPercent 7 0 = none ∧ toPercent 3 (-2) = none ∧ toPercent 0 100 = some 0 ∧
    (WagePoint.mk "a" (toPercent 5 0) 20 18).currentPercent = none :=
  ⟨toPercent_null_safety.1 7,
   toPercent_null_safety.2.1 3 (-2) (by norm_num),
   toPercent_null_safety.2.2.1,
   toPercent_null_safety.2.2.2 ["a"] [0] [5] [18] 20 0 ⟨"a", toPercent 5 0, 20, 18⟩
     (by rfl) (by norm_num)⟩

/-! ## C6: projection ramp bounds and convex combination -/

theorem convex_combination_int_bounds (a b : ℤ) (w : ℚ) (h0 : 0 ≤ w) (h1 : w ≤ 1) :
    min a b ≤ jround ((a : ℚ) * w + (b : ℚ) * (1 - w)) ∧
      jround ((a : ℚ) * w + (b : ℚ) * (1 - w)) ≤ max a b := by
  have hmin : ((min a b : ℤ) : ℚ) ≤ (a : ℚ) * w + (b : ℚ) * (1 - w) := by
    have ha : ((min a b : ℤ) : ℚ) ≤ (a : ℚ) := by exact_mod_cast min_le_left a b
    have hb : ((min a b : ℤ) : ℚ) ≤ (b : ℚ) := by exact_mod_cast min_le_right a b
    nlinarith
  have hmax : (a : ℚ) * w + (b : ℚ) * (1 - w) ≤ ((max a b : ℤ) : ℚ) := by
    have ha : (a : ℚ) ≤ ((max a b : ℤ) : ℚ) := by exact_mod_cast le_max_left a b
    have hb : (b : ℚ) ≤ ((max a b : ℤ) : ℚ) := by exact_mod_cast le_max_right a b
    nlinarith
  exact ⟨int_le_jround hmin, jround_le_int hmax⟩

/-- C6: for every input, `rampWeight` lies in `[0.1, 1]`,
`rampedProjectedTotalCents` is exactly the rounded convex combination
`raw*w + rollingAverage*(1-w)`, and (when both are non-negative) it is bounded
between `rawProjectedTotalCents` and `rollingAverageRevenueCents`. -/
theorem computeProjection_ramp_bounds (c : ℤ) (b : ℚ) (r : ℤ) (e : ℚ) :
    (1/10 ≤ (computeProjection c b r e).rampWeight ∧
      (computeProjection c b r e).rampWeight ≤ 1) ∧
    (computeProjection c b r e).rampedProjectedTotalCents =
      jround (((computeProjection c b r e).rawProjectedTotalCents : ℚ) *
        (computeProjection c b r e).rampWeight +
        (r : ℚ) * (1 - (computeProjection c b r e).rampWeight)) ∧
    (0 ≤ (computeProjection c b r e).rawProjectedTotalCents → 0 ≤ r →
      min (computeProjection c b r e).rawProjectedTotalCents r ≤
        (computeProjection c b r e).rampedProjectedTotalCents ∧
      (computeProjection c b r e).rampedProjectedTotalCents ≤
        max (computeProjection c b r e).rawProjectedTotalCents r) := by
  have hw : 1/10 ≤ (computeProjection c b r e).rampWeight ∧
      (computeProjection c b r e).rampWeight ≤ 1 := by
    constructor
    · exact le_min (le_max_right _ _) (by norm_num)
    · exact min_le_right _ _
  have heq : (computeProjection c b r e).rampedProjectedTotalCents =
      jround (((computeProjection c b r e).rawProjectedTotalCents : ℚ) *
        (computeProjection c b r e).rampWeight +
        (r : ℚ) * (1 - (computeProjection c b r e).rampWeight)) := rfl
  refine ⟨hw, heq, fun _ _ => ?_⟩
  rw [heq]
  exact convex_combination_int_bounds _ r _ (by linarith [hw.1]) hw.2

/-- Witness for C6 at the spec's §8 scenario: revenue 100000 cents at baseline
fraction 1/2 against a 200000-cent rolling average. -/
theorem computeProjection_ramp_bounds_witness :
    min (computeProjection 100000 (1/2) 200000 (1/2)).rawProjectedTotalCents 200000 ≤
      (computeProjection 100000 (1/2) 200000 (1/2)).rampedProjectedTotalCents ∧
    (computeProjection 100000 (1/2) 200000 (1/2)).rampedProjectedTotalCents ≤
      max (computeProjection 100000 (1/2) 200000 (1/2)).rawProjectedTotalCents 200000 :=
  (computeProjection_ramp_bounds 100000 (1/2) 200000 (1/2)).2.2
    (by norm_num [computeProjection, jclamp, jround]) (by norm_num)

/-! ## C1: non-final day always yields `not_last_shift` -/

/-- C1: whenever the configured week has a last non-closed weekday and the
request's business day key differs from it, the PONR solver returns status
`not_last_shift`, regardless of every other input and of the timezone
oracle. -/
theorem ponr_non_final_day (zcu : ZonedClockOracle) (inputs : PointOfNoReturnInputs)
    (k : DayKey) (hlast : getLastOpenDayKey inputs.config = some k)
    (hne : inputs.dayKey ≠ k) :
    (buildPointOfNoReturnSnapshot zcu inputs).status = .not_last_shift := by
  simp only [buildPointOfNoReturnSnapshot, hlast]
  simp only [if_pos hne]
  rfl

/-! Shared concrete inputs for the PONR witnesses. -/

/-- A concrete operating-hours value for witnesses. -/
def witnessHours (closed : Bool) : OperatingHours :=
  { openingTime := "18:00", closingTime := "02:00", isClosed := closed }

/-- A concrete configuration whose only open day is Sunday. -/
def witnessConfig : AppConfig :=
  { storeName := "store"
    timezone := "Australia/Adelaide"
    openingTime := "10:00"
    closingTime := "22:00"
    dailyOperatingHours := fun d => match d with
      | .sunday => witnessHours false
      | _ => witnessHours true
    averageBillLengthMinutes := 90
    averageHourlyRate := 30
    weeklyPointOfNoReturnWagePercent := 25
    refreshIntervalSeconds := 60
    excludedOpenOrderLabels := []
    dataSourceMode := "realtime"
    square := { environment := "production", accessToken := "tok", locationId := "LOC" }
    deputy := { accessToken := "tok", baseUrl := "https://example.com" }
    dailyTargets := fun _ => { revenueTargetCents := 100000, wageTargetPercent := 30 } }

/-- A timezone oracle that maps every wall-clock lookup to the epoch. -/
def witnessZonedClock : ZonedClockOracle := fun _ _ _ => 0

/-- Concrete PONR inputs on a Monday (not the last open day). -/
def witnessInputsMonday : PointOfNoReturnInputs :=
  { config := witnessConfig
    dayKey := .monday
    localDate := { year := 2025, month := 10, day := 6 }
    timeZone := "Australia/Adelaide"
    windowStartMs := 0
    effectiveNowMs := 0
    completedBucketCount := 0
    closedRevenueByBucket := []
    laborByBucket := []
    openBillsCents := 0
    baselineFractions := []
    projectedRevenueCents := 0
    weeklyRevenueToDateCents := none
    weeklyWagesToDateCents := none
    currentHourlySpendRate := 0 }

/-- Witness for C1: Sunday is the last open day of `witnessConfig`, and a
Monday request returns `not_last_shift`. -/
theorem ponr_non_final_day_witness :
    (buildPointOfNoReturnSnapshot witnessZonedClock witnessInputsMonday).status =
      .not_last_shift :=
  ponr_non_final_day witnessZonedClock witnessInputsMonday .sunday (by rfl)
    (by intro h; cases h)

/-! ## C3: missing weekly inputs short-circuit to `unavailable` -/

/-- C3: on the last open weekday with `now` inside the shift window, a missing
weekly revenue-to-date or wages-to-date input makes the solver return status
`unavailable` with null `pointTimeIso`, `minutesFromNow` and
`projectedWeekWagePercentAtNow`. -/
theorem ponr_missing_weekly_unavailable (zcu : ZonedClockOracle)
    (inputs : PointOfNoReturnInputs) (k : DayKey)
    (hlast : getLastOpenDayKey inputs.config = some k)
    (hday : inputs.dayKey = k)
    (hlo : (buildOperatingWindow zcu inputs.localDate
      (inputs.config.dailyOperatingHours k) inputs.timeZone).start ≤ inputs.effectiveNowMs)
    (hhi : inputs.effectiveNowMs ≤ (buildOperatingWindow zcu inputs.localDate
      (inputs.config.dailyOperatingHours k) inputs.timeZone).stop)
    (hmiss : inputs.weeklyRevenueToDateCents = none ∨
      inputs.weeklyWagesToDateCents = none) :
    (buildPointOfNoReturnSnapshot zcu inputs).status = .unavailable ∧
    (buildPointOfNoReturnSnapshot zcu inputs).pointTimeIso = none ∧
    (buildPointOfNoReturnSnapshot zcu inputs).minutesFromNow = none ∧
    (buildPointOfNoReturnSnapshot zcu inputs).projectedWeekWagePercentAtNow = none := by
  simp only [buildPointOfNoReturnSnapshot, hlast]
  have hne : ¬inputs.dayKey ≠ k := by simp [hday]
  simp only [if_neg hne]
  have hwin : ¬(inputs.effectiveNowMs < (buildOperatingWindow zcu inputs.localDate
      (inputs.config.dailyOperatingHours k) inputs.timeZone).start ∨
      (buildOperatingWindow zcu inputs.localDate
        (inputs.config.dailyOperatingHours k) inputs.timeZone).stop <
        inputs.effectiveNowMs) := by
    push_neg
    exact ⟨hlo, hhi⟩
  simp only [if_neg hwin]
  rcases hmiss with h | h
  · rw [h]
    rcases inputs.weeklyWagesToDateCents with _ | v
    · exact ⟨rfl, rfl, rfl, rfl⟩
    · exact ⟨rfl, rfl, rfl, rfl⟩
  · rw [h]
    rcases inputs.weeklyRevenueToDateCents with _ | v
    · exact ⟨rfl, rfl, rfl, rfl⟩
    · exact ⟨rfl, rfl, rfl, rfl⟩

/-- Concrete PONR inputs on the last open day (Sunday) with missing weekly
revenue, `now` at the degenerate oracle window `[0, 0]`. -/
def witnessInputsSunday : PointOfNoReturnInputs :=
  { witnessInputsMonday with dayKey := .sunday }

/-- Witness for C3 at `witnessInputsSunday`. -/
theorem ponr_missing_weekly_unavailable_witness :
    (buildPointOfNoReturnSnapshot witnessZonedClock witnessInputsSunday).status =
      .unavailable ∧
    (buildPointOfNoReturnSnapshot witnessZonedClock witnessInputsSunday).pointTimeIso =
      none ∧
    (buildPointOfNoReturnSnapshot witnessZonedClock witnessInputsSunday).minutesFromNow =
      none ∧
    (buildPointOfNoReturnSnapshot witnessZonedClock
      witnessInputsSunday).projectedWeekWagePercentAtNow = none :=
  ponr_missing_weekly_unavailable witnessZonedClock witnessInputsSunday .sunday
    (by rfl) (by rfl) (by rfl) (by rfl) (Or.inl (by rfl))

/-! ## C10: status / nullable-field invariant of PONR snapshots -/

/-- The field-status invariant claimed of every PONR snapshot: the crossing
fields are non-null exactly for `upcoming`/`passed`, and the "percent at now"
field is null for `unavailable` and `not_last_shift`. -/
def PonrFieldInvariant (s : PointOfNoReturnSnapshot) : Prop :=
  ((s.pointTimeIso ≠ none ∧ s.minutesFromNow ≠ none) ↔
    (s.status = .upcoming ∨ s.status = .passed)) ∧
  ((s.status = .unavailable ∨ s.status = .not_last_shift ∨
      s.status = .safe_all_shift) →
    (s.pointTimeIso = none ∧ s.minutesFromNow = none)) ∧
  ((s.status = .unavailable ∨ s.status = .not_last_shift) →
    s.projectedWeekWagePercentAtNow = none)

theorem ponrFieldInvariant_unavailable (t : ℚ) (w : Option WindowRange) :
    PonrFieldInvariant (buildUnavailablePointOfNoReturn t w) := by
  refine ⟨?_, fun _ => ⟨rfl, rfl⟩, fun _ => rfl⟩
  constructor
  · rintro ⟨h, -⟩
    exact absurd rfl h
  · rintro (h | h) <;> cases h

theorem ponrFieldInvariant_notLastShift (t : ℚ) (w : Option WindowRange) :
    PonrFieldInvariant (buildNotLastShiftPointOfNoReturn t w) := by
  refine ⟨?_, fun _ => ⟨rfl, rfl⟩, fun _ => rfl⟩
  constructor
  · rintro ⟨h, -⟩
    exact absurd rfl h
  · rintro (h | h) <;> cases h

theorem ponrFieldInvariant_finish (t : ℚ) (w : WindowRange) (nowMs : ℤ)
    (projAtNow : Option ℚ) (crossing : Option ℤ) :
    PonrFieldInvariant (ponrFinish t w nowMs projAtNow crossing) := by
  cases crossing with
  | none =>
    refine ⟨?_, fun _ => ⟨rfl, rfl⟩, fun h => ?_⟩
    · constructor
      · rintro ⟨h, -⟩
        exact absurd rfl h
      · rintro (h | h) <;> cases h
    · rcases h with h | h <;> cases h
  | some c =>
    by_cases hc : c ≤ nowMs
    · refine ⟨?_, fun h => ?_, fun h => ?_⟩
      · simp [ponrFinish, hc]
      · rcases h with h | h | h <;> simp [ponrFinish, hc] at h
      · rcases h with h | h <;> simp [ponrFinish, hc] at h
    · refine ⟨?_, fun h => ?_, fun h => ?_⟩
      · simp [ponrFinish, hc]
      · rcases h with h | h | h <;> simp [ponrFinish, hc] at h
      · rcases h with h | h <;> simp [ponrFinish, hc] at h

/-- C10: every snapshot produced by the PONR solver — for every oracle and
every input — satisfies the status / nullable-field invariant. -/
theorem ponrFieldInvariant_resolve (t : ℚ) (w : WindowRange) (nowMs : ℤ)
    (expectedShiftClose : ℚ) (points : List (ℤ × Option ℚ)) :
    PonrFieldInvariant (ponrResolve t w nowMs expectedShiftClose points) := by
  simp only [ponrResolve]
  split
  · exact ponrFieldInvariant_unavailable _ _
  · split
    · exact ponrFieldInvariant_unavailable _ _
    · split
      · exact ponrFieldInvariant_unavailable _ _
      · exact ponrFieldInvariant_finish _ _ _ _ _

theorem ponrFieldInvariant_core (config : AppConfig) (shiftWindow : WindowRange)
    (windowStartMs effectiveNowMs completedBucketCount : ℤ)
    (closedRevenueByBucket laborByBucket : List ℚ) (openBillsCents : ℚ)
    (baselineFractions : List ℚ) (projectedRevenueCents : ℚ)
    (weeklyRevenueToDateCents weeklyWagesToDateCents : ℚ)
    (currentHourlySpendRate : ℚ) :
    PonrFieldInvariant (ponrCore config shiftWindow windowStartMs effectiveNowMs
      completedBucketCount closedRevenueByBucket laborByBucket openBillsCents
      baselineFractions projectedRevenueCents weeklyRevenueToDateCents
      weeklyWagesToDateCents currentHourlySpendRate) := by
  simp only [ponrCore]
  repeat'
    first
    | exact ponrFieldInvariant_unavailable _ _
    | exact ponrFieldInvariant_resolve _ _ _ _ _
    | split

theorem ponr_snapshot_field_invariant (zcu : ZonedClockOracle)
    (inputs : PointOfNoReturnInputs) :
    PonrFieldInvariant (buildPointOfNoReturnSnapshot zcu inputs) := by
  simp only [buildPointOfNoReturnSnapshot]
  split
  · exact ponrFieldInvariant_unavailable _ _
  · split
    · exact ponrFieldInvariant_notLastShift _ _
    · split
      · exact ponrFieldInvariant_notLastShift _ _
      · split
        · exact ponrFieldInvariant_core _ _ _ _ _ _ _ _ _ _ _ _ _
        · exact ponrFieldInvariant_unavailable _ _

/-! ## C2: crossing-time interpolation -/

theorem findCrossingFrom_skip_below (targetWagePercent : ℚ)
    (pre : List (ℤ × ℚ)) (hpre : ∀ q ∈ pre, q.2 < targetWagePercent)
    (prev : ℤ × ℚ) (l : List (ℤ × ℚ)) :
    findCrossingFrom targetWagePercent prev (pre ++ l) =
      findCrossingFrom targetWagePercent (pre.getLastD prev) l := by
  induction pre generalizing prev with
  | nil => rfl
  | cons q pre ih =>
    have hq : q.2 < targetWagePercent := hpre q (List.mem_cons_self q pre)
    rw [List.cons_append, findCrossingFrom, if_pos hq, List.getLastD_cons]
    exact ih (fun r hr => hpre r (List.mem_cons_of_mem q hr)) q

theorem findCrossingFrom_interpolates (targetWagePercent : ℚ) (t0 t1 : ℤ)
    (p0 p1 : ℚ) (rest : List (ℤ × ℚ)) (h0 : p0 < targetWagePercent)
    (h1 : targetWagePercent ≤ p1) (hd : 1/100000 ≤ p1 - p0) :
    findCrossingFrom targetWagePercent (t0, p0) ((t1, p1) :: rest) =
      some (jround ((t0 : ℚ) + ((t1 : ℚ) - (t0 : ℚ)) *
        jclamp ((targetWagePercent - p0) / (p1 - p0)) 0 1)) := by
  rw [findCrossingFrom]
  rw [if_neg (by simpa using h1), if_neg (by simpa using h0)]
  have hdelta : ¬|p1 - targetWagePercent - (p0 - targetWagePercent)| < 1/100000 := by
    rw [show p1 - targetWagePercent - (p0 - targetWagePercent) = p1 - p0 by ring,
      abs_of_nonneg (by linarith)]
    linarith
  rw [if_neg hdelta]
  have : -(p0 - targetWagePercent) / (p1 - targetWagePercent - (p0 - targetWagePercent)) =
      (targetWagePercent - p0) / (p1 - p0) := by ring_nf
  rw [this]

/-- The amended C2: in the crossing search, whenever the first sample at or
above the threshold is preceded by below-threshold samples and the percent
delta between the crossing pair is at least the `0.00001` epsilon guard, the
crossing time is the rounded linear interpolation between the two sample times
proportional to the percent deltas, clamped to `[0,1]`. -/
theorem crossing_search_interpolation (targetWagePercent : ℚ)
    (pre : List (ℤ × ℚ)) (t0 t1 : ℤ) (p0 p1 : ℚ) (rest : List (ℤ × ℚ))
    (hpre : ∀ q ∈ pre, q.2 < targetWagePercent) (h0 : p0 < targetWagePercent)
    (h1 : targetWagePercent ≤ p1) (hd : 1/100000 ≤ p1 - p0) :
    findCrossingTimeMs targetWagePercent (pre ++ (t0, p0) :: (t1, p1) :: rest) =
      some (jround ((t0 : ℚ) + ((t1 : ℚ) - (t0 : ℚ)) *
        jclamp ((targetWagePercent - p0) / (p1 - p0)) 0 1)) := by
  cases pre with
  | nil =>
    rw [List.nil_append, findCrossingTimeMs, if_pos h0]
    exact findCrossingFrom_interpolates targetWagePercent t0 t1 p0 p1 rest h0 h1 hd
  | cons q pre =>
    have hq : q.2 < targetWagePercent := hpre q (List.mem_cons_self q pre)
    rw [List.cons_append, findCrossingTimeMs, if_pos hq,
      findCrossingFrom_skip_below targetWagePercent pre
        (fun r hr => hpre r (List.mem_cons_of_mem q hr)) q ((t0, p0) :: (t1, p1) :: rest)]
    set prev := pre.getLastD q with hprev
    rw [findCrossingFrom, if_pos h0]
    exact findCrossingFrom_interpolates targetWagePercent t0 t1 p0 p1 rest h0 h1 hd

theorem jround_eq_of_bounds (q : ℚ) (n : ℤ) (h1 : (n : ℚ) ≤ q + 1/2)
    (h2 : q + 1/2 < (n : ℚ) + 1) : jround q = n := by
  rw [jround, Int.floor_eq_iff]
  exact ⟨h1, h2⟩

/-- Witness for the amended C2, and the spec's own instance: samples at 20%
and 30% against a 25% threshold cross exactly halfway between the two times. -/
theorem crossing_search_interpolation_witness :
    findCrossingTimeMs 25 [((0 : ℤ), (20 : ℚ)), ((1000 : ℤ), (30 : ℚ))] =
      some (jround ((0 : ℚ) + ((1000 : ℚ) - (0 : ℚ)) *
        jclamp ((25 - 20) / (30 - 20)) 0 1)) ∧
    findCrossingTimeMs 25 [((0 : ℤ), (20 : ℚ)), ((1000 : ℤ), (30 : ℚ))] = some 500 := by
  have h := crossing_search_interpolation 25 [] 0 1000 20 30 []
    (by intro q hq; cases hq) (by norm_num) (by norm_num) (by norm_num)
  have hv : jround ((0 : ℚ) + ((1000 : ℚ) - (0 : ℚ)) *
      jclamp ((25 - 20 : ℚ) / (30 - 20)) 0 1) = 500 := by
    apply jround_eq_of_bounds <;> norm_num [jclamp, min_def, max_def]
  rw [List.nil_append] at h
  push_cast at h
  exact ⟨h, by rw [h, hv]⟩

/-- Counterexample to C2 as stated: when the two percents straddle the
threshold but differ by less than `0.00001`, the code returns the second
sample's time (here `1000000`), not the interpolated time (here `500000`). -/
theorem crossing_search_epsilon_counterexample :
    (24999999/1000000 : ℚ) < 25 ∧ (25 : ℚ) ≤ 25000001/1000000 ∧
    findCrossingTimeMs 25
      [((0 : ℤ), (24999999/1000000 : ℚ)), ((1000000 : ℤ), (25000001/1000000 : ℚ))] =
      some 1000000 ∧
    jround ((0 : ℚ) + ((1000000 : ℚ) - (0 : ℚ)) *
      jclamp ((25 - 24999999/1000000) / (25000001/1000000 - 24999999/1000000)) 0 1) =
      500000 ∧
    (1000000 : ℤ) ≠ 500000 := by
  refine ⟨by norm_num, by norm_num, ?_, ?_, by decide⟩
  · rw [findCrossingTimeMs, if_pos (by norm_num), findCrossingFrom,
      if_neg (by norm_num), if_neg (by norm_num),
      if_pos (by rw [abs_of_nonneg (by norm_num)]; norm_num)]
  · apply jround_eq_of_bounds <;> norm_num [jclamp, min_def, max_def]

/-! ## C4: baseline fallback behaviour -/

theorem getD_replicate_self (n : ℕ) (a : ℚ) (i : ℕ) :
    (List.replicate n a).getD i a = a := by
  by_cases h : i < n
  · exact getD_replicate n a i a h
  · rw [List.getD_eq_getElem?_getD, List.getElem?_replicate, if_neg h]
    rfl

/-- The amended C4: `buildBaselineFractions` returns the `[0.02]` sentinel
exactly when no comparable night has any bucket (`maxBuckets = 0`); when
buckets exist but every night's total revenue is `≤ 0` it returns the all-zero
sequence of length `maxBuckets` (not the sentinel); the `(i+1)/bucketCount`
linear ramp is produced by `buildFallbackFractions` for positive bucket
counts. -/
theorem baseline_fallback_amended :
    (∀ s : List (List ℚ), s.foldl (fun m series => max m series.length) 0 = 0 →
      buildBaselineFractions s = [1/50]) ∧
    (∀ s : List (List ℚ), s.foldl (fun m series => max m series.length) 0 ≠ 0 →
      (∀ series ∈ s, series.foldl (· + ·) 0 ≤ 0) →
      buildBaselineFractions s =
        List.replicate (s.foldl (fun m series => max m series.length) 0) 0) ∧
    (∀ n : ℤ, 1 ≤ n → buildFallbackFractions n =
      (List.range n.toNat).map (fun i : ℕ => ((i : ℚ) + 1) / (n : ℚ))) := by
  refine ⟨fun s h => by rw [buildBaselineFractions, if_pos h], fun s h htot => ?_,
    fun n hn => ?_⟩
  · rw [buildBaselineFractions, if_neg h]
    set M := s.foldl (fun m series => max m series.length) 0 with hM
    rw [List.eq_replicate]
    refine ⟨by simp, ?_⟩
    intro b hb
    rcases List.mem_map.mp hb with ⟨index, -, hbi⟩
    have hnight : ∀ fractions ∈ s.map (fun series =>
        let total := series.foldl (· + ·) 0
        if total ≤ 0 then List.replicate M (0 : ℚ)
        else
          let cumulativeValues := cumulative series
          (List.range M).map (fun index =>
            let safeIndex := min index (cumulativeValues.length - 1)
            jclamp (cumulativeValues.getD safeIndex 0 / total) 0 1)),
        fractions.getD index 0 = 0 := by
      intro fractions hf
      rcases List.mem_map.mp hf with ⟨series, hs, hfs⟩
      simp only [if_pos (htot series hs)] at hfs
      rw [← hfs]
      exact getD_replicate_self M 0 index
    rw [← hbi]
    have hsum : ((s.map (fun series =>
        let total := series.foldl (· + ·) 0
        if total ≤ 0 then List.replicate M (0 : ℚ)
        else
          let cumulativeValues := cumulative series
          (List.range M).map (fun index =>
            let safeIndex := min index (cumulativeValues.length - 1)
            jclamp (cumulativeValues.getD safeIndex 0 / total) 0 1))).map
        (fun fractions => fractions.getD index 0)).sum = 0 := by
      refine List.sum_eq_zero ?_
      intro x hx
      rcases List.mem_map.mp hx with ⟨fractions, hf, hfx⟩
      rw [← hfx]
      exact hnight fractions hf
    rw [hsum, zero_div]
    norm_num [jclamp]
  · rw [buildFallbackFractions, if_neg (by omega)]
    refine List.map_congr_left ?_
    intro i hi
    rcases eq_or_lt_of_le hn with h1 | h1
    · rw [if_pos h1.symm]
      rw [List.mem_range, ← h1] at hi
      norm_num at hi
      subst hi
      norm_num [← h1]
    · rw [if_neg (by omega)]

/-- Counterexample to C4 as stated: one comparable night `[0]` with zero total
makes `buildBaselineFractions` return `[0]`, which is neither the `[0.02]`
sentinel nor the one-bucket linear ramp `[1]`. -/
theorem baseline_zero_totals_counterexample :
    buildBaselineFractions [[0]] = [0] ∧
    ([0] : List ℚ) ≠ [1/50] ∧
    buildFallbackFractions 1 = [1] ∧
    ([0] : List ℚ) ≠ [1] := by
  refine ⟨?_, by norm_num, ?_, by norm_num⟩
  · have h := baseline_fallback_amended.2.1 [[0]] (by norm_num)
      (by intro series hs; simp at hs; simp [hs, List.foldl])
    simpa using h
  · have h := baseline_fallback_amended.2.2 1 le_rfl
    rw [h]
    norm_num [show (1 : ℤ).toNat = 1 from rfl, List.range_succ, List.range_zero]

/-- Witness for the amended C4: the empty comparable list, a zero-total night,
and a two-bucket fallback ramp. -/
theorem baseline_fallback_amended_witness :
    buildBaselineFractions [] = [1/50] ∧
    buildBaselineFractions [[0], [0, 0]] = [0, 0] ∧
    buildFallbackFractions 2 = [1/2, 1] := by
  refine ⟨baseline_fallback_amended.1 [] rfl, ?_, ?_⟩
  · have h := baseline_fallback_amended.2.1 [[0], [0, 0]] (by norm_num)
      (by intro series hs; simp at hs; rcases hs with h | h <;> simp [h, List.foldl])
    simpa using h
  · have h := baseline_fallback_amended.2.2 2 (by norm_num)
    rw [h]
    norm_num [show (2 : ℤ).toNat = 2 from rfl, List.range_succ, List.range_zero]

/-! ## C9: bound on the carryover baseline cache -/

theorem carryover_step_bound (nowIso : String) (config : AppConfig)
    (windowStartMs : ℤ) (excludedLabels : List String) (cur : ℚ)
    (cache : BaselineCache) (h : cache.length ≤ 201) :
    (getExcludedCarryoverBaselineCents nowIso config windowStartMs excludedLabels
      cur cache).2.length ≤ 201 := by
  rw [getExcludedCarryoverBaselineCents]
  split
  · exact h
  · split
    · exact h
    · simp only [List.length_append, List.length_cons, List.length_nil]
      split
      · simp only [List.length_tail]
        omega
      · omega

/-- The amended C9: starting from the empty map, the excluded-carryover cache
never holds more than 201 entries (the eviction check `size > 200` runs before
insertion, so the map can reach 201, not 200); and a call with an empty
excluded-label list returns 0 without touching the cache. -/
theorem carryover_cache_bound :
    (∀ calls : List CarryoverCall,
      (applyCarryoverCalls calls []).length ≤ 201) ∧
    (∀ (nowIso : String) (config : AppConfig) (windowStartMs : ℤ) (cur : ℚ)
      (cache : BaselineCache),
      getExcludedCarryoverBaselineCents nowIso config windowStartMs [] cur cache =
        (0, cache)) := by
  constructor
  · have hgen : ∀ (calls : List CarryoverCall) (cache : BaselineCache),
        cache.length ≤ 201 → (applyCarryoverCalls calls cache).length ≤ 201 := by
      intro calls
      induction calls with
      | nil => intro cache h; exact h
      | cons call rest ih =>
        intro cache h
        exact ih _ (carryover_step_bound call.nowIso call.config call.windowStartMs
          call.excludedLabels call.currentExcludedTotalCents cache h)
    exact fun calls => hgen calls [] (by simp)
  · intro nowIso config windowStartMs cur cache
    rfl

theorem intercalate_single (a : String) : String.intercalate "|" [a] = a := by
  simp [String.intercalate, String.intercalate.go]

theorem string_append_left_cancel {p a b : String} (h : p ++ a = p ++ b) : a = b := by
  cases p with | mk dp => cases a with | mk da => cases b with | mk db =>
    simp only [String.ext_iff] at h ⊢
    simpa using h

theorem buildKey_single_inj (config : AppConfig) (w : ℤ) {a b : String}
    (h : buildExcludedServiceDayKey config w [a] =
      buildExcludedServiceDayKey config w [b]) : a = b := by
  rw [buildExcludedServiceDayKey, buildExcludedServiceDayKey,
    show sortStrings [a] = [a] from rfl, show sortStrings [b] = [b] from rfl,
    intercalate_single, intercalate_single] at h
  exact string_append_left_cancel h

theorem carryover_insert_fresh (nowIso : String) (config : AppConfig) (w : ℤ)
    (s : String) (cur : ℚ) (cache : BaselineCache)
    (hfresh : ∀ e ∈ cache, e.1 ≠ buildExcludedServiceDayKey config w [s])
    (hlen : cache.length ≤ 200) :
    (getExcludedCarryoverBaselineCents nowIso config w [s] cur cache).2 =
      cache ++ [(buildExcludedServiceDayKey config w [s],
        { baselineCents := max 0 cur, capturedAtIso := nowIso })] := by
  rw [getExcludedCarryoverBaselineCents]
  rw [if_neg (by simp)]
  have hfind : cache.find? (fun entry =>
      entry.1 = buildExcludedServiceDayKey config w [s]) = none := by
    rw [List.find?_eq_none]
    intro e he
    simpa using hfresh e he
  rw [hfind]
  simp only []
  rw [if_neg (by omega)]

theorem applyCalls_fresh_length (nowIso : String) (config : AppConfig) (w : ℤ)
    (cur : ℚ) :
    ∀ (ss : List String) (cache : BaselineCache),
    ss.Pairwise (fun a b => buildExcludedServiceDayKey config w [a] ≠
      buildExcludedServiceDayKey config w [b]) →
    (∀ s ∈ ss, ∀ e ∈ cache, e.1 ≠ buildExcludedServiceDayKey config w [s]) →
    cache.length + ss.length ≤ 201 →
    (applyCarryoverCalls (ss.map (fun s =>
      { nowIso := nowIso, config := config, windowStartMs := w,
        excludedLabels := [s], currentExcludedTotalCents := cur })) cache).length =
      cache.length + ss.length := by
  intro ss
  induction ss with
  | nil =>
    intro cache _ _ _
    simp [applyCarryoverCalls]
  | cons s rest ih =>
    intro cache hpair hfresh hlen
    have hstep := carryover_insert_fresh nowIso config w s cur cache
      (hfresh s (List.mem_cons_self s rest)) (by simp at hlen; omega)
    have hunfold : applyCarryoverCalls ((s :: rest).map (fun t =>
        (⟨nowIso, config, w, [t], cur⟩ : CarryoverCall))) cache =
        applyCarryoverCalls (rest.map (fun t =>
          (⟨nowIso, config, w, [t], cur⟩ : CarryoverCall)))
          ((getExcludedCarryoverBaselineCents nowIso config w [s] cur cache).2) := by
      rw [List.map_cons, applyCarryoverCalls, List.foldl_cons]
      rfl
    rw [hunfold, hstep]
    have hpair' := (List.pairwise_cons.mp hpair).2
    have hkeyne := (List.pairwise_cons.mp hpair).1
    have hfresh' : ∀ t ∈ rest, ∀ e ∈ cache ++
        [(buildExcludedServiceDayKey config w [s],
          ({ baselineCents := max 0 cur, capturedAtIso := nowIso } :
            ExcludedOpenOrderBaselineEntry))],
        e.1 ≠ buildExcludedServiceDayKey config w [t] := by
      intro t ht e he
      rcases List.mem_append.mp he with he | he
      · exact hfresh t (List.mem_cons_of_mem s ht) e he
      · simp only [List.mem_singleton] at he
        rw [he]
        exact hkeyne t ht
    have := ih (cache ++ [(buildExcludedServiceDayKey config w [s],
        { baselineCents := max 0 cur, capturedAtIso := nowIso })]) hpair' hfresh'
      (by simp at hlen ⊢; omega)
    rw [this]
    simp
    omega

/-- 201 polls of the same location and window, each excluding one fresh label. -/
def carryoverCounterexampleCalls : List CarryoverCall :=
  (List.range 201).map (fun k =>
    (⟨"t", witnessConfig, 0, [String.mk (List.replicate (k + 1) 'x')], 1⟩ :
      CarryoverCall))

/-- Counterexample to C9 as stated ("the map's size never exceeds 200"):
replaying 201 distinct-key calls from the empty map leaves 201 entries. -/
theorem carryover_cache_counterexample :
    200 < (applyCarryoverCalls carryoverCounterexampleCalls []).length := by
  have hmap : carryoverCounterexampleCalls =
      ((List.range 201).map (fun k => String.mk (List.replicate (k + 1) 'x'))).map
        (fun s => (⟨"t", witnessConfig, 0, [s], 1⟩ : CarryoverCall)) := by
    rw [carryoverCounterexampleCalls, List.map_map]
    rfl
  have hpair : ((List.range 201).map
      (fun k => String.mk (List.replicate (k + 1) 'x'))).Pairwise
      (fun a b => buildExcludedServiceDayKey witnessConfig 0 [a] ≠
        buildExcludedServiceDayKey witnessConfig 0 [b]) := by
    rw [List.pairwise_map]
    refine (List.pairwise_lt_range 201).imp ?_
    intro k j hkj hkey
    have h1 := buildKey_single_inj witnessConfig 0 hkey
    have h2 : List.replicate (k + 1) 'x' = List.replicate (j + 1) 'x' :=
      congrArg String.data h1
    have h3 := congrArg List.length h2
    simp at h3
    omega
  rw [hmap, applyCalls_fresh_length "t" witnessConfig 0 1 _ [] hpair
    (by intro s _ e he; cases he) (by simp)]
  simp

/-! ## C8: closed operating day yields the all-zero snapshot -/

/-- C8: when the business day's configured operating hours are marked closed,
the realtime snapshot builder returns the closed snapshot: all totals zero with
a null `wagePercent`, a timeline holding the single "Closed" bucket (with a
single null-percent wage point), and all-zero projection fields. -/
theorem closed_day_snapshot (gz : ZonedNowOracle) (nowIso : String)
    (config : AppConfig) (refMs : ℤ)
    (hclosed : (getOperatingHoursForDay config
      ((gz (toBusinessDayReference refMs BUSINESS_DAY_START_HOUR)
        config.timezone).dayKey)).isClosed = true) :
    buildRealtimeSnapshotClosedGuard gz nowIso config refMs =
      some (buildClosedSnapshot gz nowIso config refMs) ∧
    (buildClosedSnapshot gz nowIso config refMs).totals =
      { actualRevenueCents := 0, openBillsCents := 0, adjustedRevenueCents := 0,
        projectedRevenueCents := 0, projectedVsTargetPercent := 0,
        laborCostCents := 0, wagePercent := none } ∧
    (buildClosedSnapshot gz nowIso config refMs).timeline.revenueBuckets =
      [⟨0, "Closed", 0, 0, 0⟩] ∧
    (∀ wp ∈ (buildClosedSnapshot gz nowIso config refMs).timeline.wageSeries,
      wp.currentPercent = none) ∧
    (buildClosedSnapshot gz nowIso config refMs).projection =
      { baselineFraction := 0, rawProjectedTotalCents := 0,
        rampedProjectedTotalCents := 0, rampWeight := 0, elapsedFraction := 0 } := by
  refine ⟨?_, rfl, rfl, ?_, rfl⟩
  · rw [buildRealtimeSnapshotClosedGuard]
    simp only [hclosed]
    rfl
  · intro wp hwp
    simp only [buildClosedSnapshot, List.mem_singleton] at hwp
    rw [hwp]

/-- A concrete configuration whose days are all closed. -/
def witnessClosedConfig : AppConfig :=
  { witnessConfig with dailyOperatingHours := fun _ => witnessHours true }

/-- A concrete `getZonedNow` oracle: always Monday midnight. -/
def witnessZonedNow : ZonedNowOracle := fun _ _ => ⟨.monday, 0, 0⟩

/-- Witness for C8 on `witnessClosedConfig` at the epoch. -/
theorem closed_day_snapshot_witness :
    buildRealtimeSnapshotClosedGuard witnessZonedNow "now" witnessClosedConfig 0 =
      some (buildClosedSnapshot witnessZonedNow "now" witnessClosedConfig 0) ∧
    (buildClosedSnapshot witnessZonedNow "now" witnessClosedConfig 0).totals =
      { actualRevenueCents := 0, openBillsCents := 0, adjustedRevenueCents := 0,
        projectedRevenueCents := 0, projectedVsTargetPercent := 0,
        laborCostCents := 0, wagePercent := none } ∧
    (buildClosedSnapshot witnessZonedNow "now" witnessClosedConfig 0).timeline.revenueBuckets =
      [⟨0, "Closed", 0, 0, 0⟩] ∧
    (∀ wp ∈ (buildClosedSnapshot witnessZonedNow "now"
        witnessClosedConfig 0).timeline.wageSeries, wp.currentPercent = none) ∧
    (buildClosedSnapshot witnessZonedNow "now" witnessClosedConfig 0).projection =
      { baselineFraction := 0, rawProjectedTotalCents := 0,
        rampedProjectedTotalCents := 0, rampWeight := 0, elapsedFraction := 0 } :=
  closed_day_snapshot witnessZonedNow "now" witnessClosedConfig 0 (by rfl)

/-! ## C5: monotone, bounded baseline fractions -/

/-- The C5 well-formedness predicate: non-decreasing and valued in `[0,1]`. -/
def FractionsWellFormed (l : List ℚ) : Prop :=
  l.Chain' (· ≤ ·) ∧ ∀ x ∈ l, 0 ≤ x ∧ x ≤ 1

theorem div_le_div_den_nonneg {a b c : ℚ} (hc : 0 ≤ c) (h : a ≤ b) :
    a / c ≤ b / c := by
  rcases eq_or_lt_of_le hc with h0 | h0
  · rw [← h0, div_zero, div_zero]
  · exact (div_le_div_iff_of_pos_right h0).mpr h

theorem buildBaselineFractions_wellFormed (s : List (List ℚ))
    (hpos : ∀ series ∈ s, ∀ x ∈ series, 0 ≤ x) :
    FractionsWellFormed (buildBaselineFractions s) := by
  simp only [buildBaselineFractions]
  split
  · refine ⟨by simp, ?_⟩
    intro x hx
    simp only [List.mem_singleton] at hx
    subst hx
    norm_num
  next hM =>
    constructor
    · apply chain'_map_range
      intro i hi
      apply jclamp_mono
      apply div_le_div_den_nonneg (by positivity)
      rw [List.map_map, List.map_map]
      refine List.sum_le_sum ?_
      intro series hs
      simp only [Function.comp_apply]
      by_cases ht : series.foldl (· + ·) 0 ≤ 0
      · simp only [if_pos ht]
        rw [getD_replicate_self, getD_replicate_self]
      · have htpos : 0 < series.foldl (· + ·) 0 := lt_of_not_le ht
        have hser : series ≠ [] := by
          intro hnil
          rw [hnil] at htpos
          norm_num [List.foldl] at htpos
        have hlen : 0 < series.length := List.length_pos.mpr hser
        have hclen : (cumulative series).length = series.length :=
          cumulative_length series
        simp only [if_neg ht]
        rw [getD_map_range _ (by omega), getD_map_range _ hi]
        apply jclamp_mono
        apply div_le_div_den_nonneg (le_of_lt htpos)
        have hia : min i ((cumulative series).length - 1) < series.length := by omega
        have hib : min (i + 1) ((cumulative series).length - 1) < series.length := by
          omega
        rw [cumulative_getD series _ hia, cumulative_getD series _ hib]
        exact sum_take_le_sum_take (hpos series hs) (by omega)
    · intro x hx
      rcases List.mem_map.mp hx with ⟨i, -, rfl⟩
      exact jclamp_mem_unit _

theorem buildFallbackFractions_wellFormed (n : ℤ) :
    FractionsWellFormed (buildFallbackFractions n) := by
  rw [buildFallbackFractions]
  split
  · refine ⟨by simp, ?_⟩
    intro x hx
    simp only [List.mem_singleton] at hx
    subst hx
    norm_num
  next hn =>
    have hn' : 0 < n := by omega
    have hcast : (0 : ℚ) < (n : ℚ) := by exact_mod_cast hn'
    constructor
    · apply chain'_map_range
      intro i hi
      by_cases h1 : n = 1
      · simp [h1]
      · rw [if_neg h1, if_neg h1]
        apply div_le_div_den_nonneg (le_of_lt hcast)
        push_cast
        linarith
    · intro x hx
      rcases List.mem_map.mp hx with ⟨i, hi, rfl⟩
      by_cases h1 : n = 1
      · simp [h1]
      · rw [if_neg h1]
        constructor
        · positivity
        · rw [div_le_one hcast]
          rw [List.mem_range] at hi
          calc (i : ℚ) + 1 ≤ (n.toNat : ℚ) := by exact_mod_cast hi
            _ = ((n.toNat : ℤ) : ℚ) := by push_cast; ring
            _ = (n : ℚ) := by rw [Int.toNat_of_nonneg (le_of_lt hn')]


theorem normalizeFractions_wellFormed (l : List ℚ) (h : FractionsWellFormed l)
    (n : ℤ) : FractionsWellFormed (normalizeFractions l n) := by
  simp only [normalizeFractions]
  split
  · refine ⟨by simp, ?_⟩
    intro x hx
    simp only [List.mem_singleton] at hx
    subst hx
    norm_num
  next hn =>
    split
    · exact h
    · split
      · exact buildFallbackFractions_wellFormed n
      · split
        · exact ⟨chain'_take h.1 _, fun x hx => h.2 x (List.take_subset _ _ hx)⟩
        next hEq hZero hLt =>
          have hnil : l ≠ [] := by
            intro hl
            rw [hl] at hZero
            exact hZero rfl
          have hlast_mem : l.getLast?.getD 0 ∈ l := by
            rw [List.getLast?_eq_getLast l hnil]
            exact List.getLast_mem hnil
          obtain ⟨hl0, hl1⟩ := h.2 _ hlast_mem
          have hrem : 0 < n - (l.length : ℤ) := by omega
          have hremQ : (0 : ℚ) < ((n - (l.length : ℤ) : ℤ) : ℚ) := by exact_mod_cast hrem
          constructor
          · rw [List.chain'_append]
            refine ⟨h.1, ?_, ?_⟩
            · apply chain'_map_range
              intro i hi
              apply jclamp_mono
              have hmul : (0 : ℚ) ≤ 1 - l.getLast?.getD 0 := by linarith
              have : (1 - l.getLast?.getD 0) * ((i : ℚ) + 1) ≤
                  (1 - l.getLast?.getD 0) * ((i + 1 : ℕ) + 1) := by
                apply mul_le_mul_of_nonneg_left _ hmul
                push_cast
                linarith
              calc l.getLast?.getD 0 +
                    (1 - l.getLast?.getD 0) * ((i : ℚ) + 1) / ((n - (l.length : ℤ) : ℤ) : ℚ) ≤
                  l.getLast?.getD 0 +
                    (1 - l.getLast?.getD 0) * (((i + 1 : ℕ) : ℚ) + 1) / ((n - (l.length : ℤ) : ℤ) : ℚ) := by
                    have := div_le_div_den_nonneg (le_of_lt hremQ) this
                    push_cast at this ⊢
                    linarith
                _ = _ := rfl
            · intro x hx y hy
              rw [List.getLast?_eq_getLast l hnil, Option.mem_some_iff] at hx
              have hx' : x = l.getLast?.getD 0 := by
                rw [List.getLast?_eq_getLast l hnil]
                exact hx.symm ▸ rfl
              obtain ⟨m, hm⟩ : ∃ m, (n - (l.length : ℤ)).toNat = m + 1 := by
                refine ⟨(n - (l.length : ℤ)).toNat - 1, ?_⟩
                omega
              rw [hm, List.range_succ_eq_map, List.map_cons, List.head?_cons,
                Option.mem_some_iff] at hy
              subst hy
              rw [hx']
              apply le_jclamp_unit hl1
              have : (0 : ℚ) ≤ (1 - l.getLast?.getD 0) * ((0 : ℕ) + 1 : ℚ) /
                  ((n - (l.length : ℤ) : ℤ) : ℚ) := by
                apply div_nonneg _ (le_of_lt hremQ)
                apply mul_nonneg (by linarith)
                norm_num
              push_cast at this ⊢
              linarith
          · intro x hx
            rcases List.mem_append.mp hx with hx | hx
            · exact h.2 x hx
            · rcases List.mem_map.mp hx with ⟨i, -, rfl⟩
              exact jclamp_mem_unit _

/-- C5: for comparable-night bucket series with non-negative entries, the
baseline-fractions sequence built by the engine is monotonically non-decreasing
with every value in `[0,1]`, and this is preserved by `normalizeFractions` at
any bucket count. -/
theorem baseline_fractions_monotone_bounded (s : List (List ℚ)) (n : ℤ)
    (hpos : ∀ series ∈ s, ∀ x ∈ series, 0 ≤ x) :
    FractionsWellFormed (buildBaselineFractions s) ∧
    FractionsWellFormed (normalizeFractions (buildBaselineFractions s) n) :=
  ⟨buildBaselineFractions_wellFormed s hpos,
   normalizeFractions_wellFormed _ (buildBaselineFractions_wellFormed s hpos) n⟩

/-- Witness for C5: two comparable nights and a five-bucket normalization. -/
theorem baseline_fractions_monotone_bounded_witness :
    FractionsWellFormed (buildBaselineFractions [[1, 2], [0]]) ∧
    FractionsWellFormed (normalizeFractions (buildBaselineFractions [[1, 2], [0]]) 5) :=
  baseline_fractions_monotone_bounded [[1, 2], [0]] 5 (by
    intro series hs x hx
    fin_cases hs <;> fin_cases hx <;> norm_num)

end BarOps